import Mathlib

/-!
# Verification of the meal-logging storage component

A shallow embedding of `src/database.py` (class `MealDatabase`) and the
caller-side nutrient scaling of `src/app.py`.  SQLite `REAL` columns are
modelled as `ℚ`; where a claim turns on the program's floating-point
arithmetic, binary64 round-to-nearest-even is modelled explicitly over `ℚ`
by `fl64` (every binary64 value is an exact rational).  `TEXT` columns are
`String` (SQLite's binary collation on UTF-8 text agrees with Lean's
lexicographic `String` order on the ISO dates and timestamps used here).
Each table is a list of rows in insertion (rowid) order together with the
next `AUTOINCREMENT` id.
-/

/-- A row of the `food_master` table. -/
structure Food where
  id : Nat
  name : String
  calories : ℚ
  protein : ℚ
  fat : ℚ
  carbs : ℚ
  fiber : ℚ
deriving DecidableEq, Repr

/-- A row of the `meal_records` table. -/
structure MealRecord where
  id : Nat
  date : String
  meal_type : String
  food_name : String
  amount : ℚ
  calories : ℚ
  protein : ℚ
  fat : ℚ
  carbs : ℚ
  fiber : ℚ
  created_at : String
deriving DecidableEq, Repr

/-- The state of the database once both tables exist: the two tables in
rowid order, plus the next auto-increment id of each. -/
structure MealDatabase where
  food_master : List Food
  meal_records : List MealRecord
  next_food_id : Nat
  next_meal_id : Nat
deriving DecidableEq, Repr

namespace MealDatabase

/-- `SUM(col)` in SQL: `NULL` (here `none`) over zero rows, otherwise the sum. -/
def sqlSum (xs : List ℚ) : Option ℚ :=
  if xs.isEmpty then none else some xs.sum

/-- `init_db`: `CREATE TABLE IF NOT EXISTS` for both tables.  The argument is
the on-disk state before the call: `none` when the database file (hence both
tables) does not exist yet, `some db` when the tables exist holding `db`.
Tables only ever come into existence through this call, which creates both,
so the two tables are absent or present together. -/
def init_db : Option MealDatabase → MealDatabase
  | none => { food_master := [], meal_records := [], next_food_id := 1, next_meal_id := 1 }
  | some db => db

/-- `add_food_to_master`: `INSERT INTO food_master (name, calories, protein,
fat, carbs, fiber) VALUES (?, ?, ?, ?, ?, ?)`. -/
def add_food_to_master (db : MealDatabase) (name : String) (calories : ℚ)
    (protein : ℚ := 0) (fat : ℚ := 0) (carbs : ℚ := 0) (fiber : ℚ := 0) :
    MealDatabase :=
  { db with
    food_master := db.food_master ++
      [{ id := db.next_food_id, name := name, calories := calories,
         protein := protein, fat := fat, carbs := carbs, fiber := fiber }],
    next_food_id := db.next_food_id + 1 }

/-- The comparison `ORDER BY name` sorts `food_master` rows by. -/
def foodLe (a b : Food) : Prop := a.name ≤ b.name

instance : DecidableRel foodLe := fun a b =>
  inferInstanceAs (Decidable (a.name ≤ b.name))

instance : IsTotal Food foodLe := ⟨fun a b => le_total a.name b.name⟩

instance : IsTrans Food foodLe := ⟨fun _ _ _ hab hbc => le_trans hab hbc⟩

/-- `get_all_foods`: `SELECT * FROM food_master ORDER BY name`. -/
def get_all_foods (db : MealDatabase) : List Food :=
  List.insertionSort foodLe db.food_master

/-- `add_meal_record`: `INSERT INTO meal_records (date, meal_type, food_name,
amount, calories, protein, fat, carbs, fiber) VALUES (...)`; `created_at` is
filled by the store from the clock (`DEFAULT CURRENT_TIMESTAMP`), modelled as
the extra argument `now`. -/
def add_meal_record (db : MealDatabase) (date meal_type food_name : String)
    (amount calories : ℚ) (protein : ℚ := 0) (fat : ℚ := 0) (carbs : ℚ := 0)
    (fiber : ℚ := 0) (now : String := "") : MealDatabase :=
  { db with
    meal_records := db.meal_records ++
      [{ id := db.next_meal_id, date := date, meal_type := meal_type,
         food_name := food_name, amount := amount, calories := calories,
         protein := protein, fat := fat, carbs := carbs, fiber := fiber,
         created_at := now }],
    next_meal_id := db.next_meal_id + 1 }

/-- The comparison `ORDER BY created_at` sorts matching rows by. -/
def createdLe (a b : MealRecord) : Prop := a.created_at ≤ b.created_at

instance : DecidableRel createdLe := fun a b =>
  inferInstanceAs (Decidable (a.created_at ≤ b.created_at))

instance : IsTotal MealRecord createdLe := ⟨fun a b => le_total a.created_at b.created_at⟩

instance : IsTrans MealRecord createdLe := ⟨fun _ _ _ hab hbc => le_trans hab hbc⟩

/-- `get_meals_by_date`: `SELECT ... FROM meal_records WHERE date = ?
ORDER BY created_at`. -/
def get_meals_by_date (db : MealDatabase) (date : String) : List MealRecord :=
  List.insertionSort createdLe
    (db.meal_records.filter (fun r => r.date == date))

/-- The comparison `ORDER BY date, created_at` sorts matching rows by. -/
def mealLe (a b : MealRecord) : Prop :=
  a.date < b.date ∨ (a.date = b.date ∧ a.created_at ≤ b.created_at)

instance : DecidableRel mealLe := fun a b =>
  inferInstanceAs (Decidable (a.date < b.date ∨ (a.date = b.date ∧ a.created_at ≤ b.created_at)))

instance : IsTotal MealRecord mealLe := by
  constructor
  intro a b
  rcases lt_trichotomy a.date b.date with h | h | h
  · exact Or.inl (Or.inl h)
  · rcases le_total a.created_at b.created_at with h2 | h2
    · exact Or.inl (Or.inr ⟨h, h2⟩)
    · exact Or.inr (Or.inr ⟨h.symm, h2⟩)
  · exact Or.inr (Or.inl h)

instance : IsTrans MealRecord mealLe := by
  constructor
  intro a b c hab hbc
  rcases hab with h1 | ⟨h1, h1c⟩
  · rcases hbc with h2 | ⟨h2, _⟩
    · exact Or.inl (h1.trans h2)
    · exact Or.inl (h2 ▸ h1)
  · rcases hbc with h2 | ⟨h2, h2c⟩
    · exact Or.inl (h1 ▸ h2)
    · exact Or.inr ⟨h1.trans h2, h1c.trans h2c⟩

/-- `WHERE date BETWEEN ? AND ?`: SQL `BETWEEN` is inclusive on both ends. -/
def inRange (s e : String) (r : MealRecord) : Bool :=
  decide (s ≤ r.date ∧ r.date ≤ e)

/-- `get_meals_by_date_range`: `SELECT ... FROM meal_records WHERE date
BETWEEN ? AND ? ORDER BY date, created_at`. -/
def get_meals_by_date_range (db : MealDatabase) (start_date end_date : String) :
    List MealRecord :=
  List.insertionSort mealLe (db.meal_records.filter (inRange start_date end_date))

/-- `delete_meal_record`: `DELETE FROM meal_records WHERE id = ?`. -/
def delete_meal_record (db : MealDatabase) (record_id : Nat) : MealDatabase :=
  { db with meal_records := db.meal_records.filter (fun r => r.id ≠ record_id) }

/-- The `SET` clause of `update_meal_record`: overwrite the nine mutable
fields of a row, leaving `id` and `created_at` as they are. -/
def applyUpdate (date meal_type food_name : String) (amount calories : ℚ)
    (protein fat carbs fiber : ℚ) (r : MealRecord) : MealRecord :=
  { r with date := date, meal_type := meal_type, food_name := food_name,
           amount := amount, calories := calories, protein := protein,
           fat := fat, carbs := carbs, fiber := fiber }

/-- `update_meal_record`: `UPDATE meal_records SET date = ?, meal_type = ?,
food_name = ?, amount = ?, calories = ?, protein = ?, fat = ?, carbs = ?,
fiber = ? WHERE id = ?`. -/
def update_meal_record (db : MealDatabase) (record_id : Nat)
    (date meal_type food_name : String) (amount calories : ℚ)
    (protein : ℚ := 0) (fat : ℚ := 0) (carbs : ℚ := 0) (fiber : ℚ := 0) :
    MealDatabase :=
  { db with
    meal_records := db.meal_records.map (fun r =>
      if r.id = record_id then
        applyUpdate date meal_type food_name amount calories protein fat carbs fiber r
      else r) }

/-- `get_daily_summary`: `SELECT SUM(calories), SUM(protein), SUM(fat),
SUM(carbs), SUM(fiber) FROM meal_records WHERE date = ?`, each `SUM`
coalesced by Python's `row[i] or 0`, returned as the dict
`{"calories": ..., "protein": ..., "fat": ..., "carbs": ..., "fiber": ...}`
(modelled as an association list in the dict's key order). -/
def get_daily_summary (db : MealDatabase) (date : String) : List (String × ℚ) :=
  let rows := db.meal_records.filter (fun r => r.date == date)
  [("calories", (sqlSum (rows.map MealRecord.calories)).getD 0),
   ("protein", (sqlSum (rows.map MealRecord.protein)).getD 0),
   ("fat", (sqlSum (rows.map MealRecord.fat)).getD 0),
   ("carbs", (sqlSum (rows.map MealRecord.carbs)).getD 0),
   ("fiber", (sqlSum (rows.map MealRecord.fiber)).getD 0)]

/-- A row of the `get_period_summary` result set. -/
structure PeriodRow where
  date : String
  total_calories : ℚ
  total_protein : ℚ
  total_fat : ℚ
  total_carbs : ℚ
  total_fiber : ℚ
deriving DecidableEq, Repr

/-- Insert a date into a strictly ascending list of dates, keeping it strictly
ascending: the semantics of collecting `GROUP BY date` keys under
`ORDER BY date`. -/
def insertDate (d : String) : List String → List String
  | [] => [d]
  | x :: xs =>
    if d = x then x :: xs
    else if d < x then d :: x :: xs
    else x :: insertDate d xs

/-- The distinct dates of a list of rows, ascending: the `GROUP BY date ...
ORDER BY date` key list. -/
def groupDates (rs : List MealRecord) : List String :=
  rs.foldr (fun r acc => insertDate r.date acc) []

/-- `get_period_summary`: `SELECT date, SUM(calories) AS total_calories, ...
FROM meal_records WHERE date BETWEEN ? AND ? GROUP BY date ORDER BY date`.
One result row per distinct date among the matching rows, holding that
group's sums. -/
def get_period_summary (db : MealDatabase) (start_date end_date : String) :
    List PeriodRow :=
  let rows := db.meal_records.filter (inRange start_date end_date)
  (groupDates rows).map (fun d =>
    let g := rows.filter (fun r => r.date == d)
    { date := d,
      total_calories := (g.map MealRecord.calories).sum,
      total_protein := (g.map MealRecord.protein).sum,
      total_fat := (g.map MealRecord.fat).sum,
      total_carbs := (g.map MealRecord.carbs).sum,
      total_fiber := (g.map MealRecord.fiber).sum })

end MealDatabase

/-- The caller-side nutrient scaling of `src/app.py` (lines 188-194) read in
exact rational arithmetic: `ratio = amount / 100.0` and each per-100g field
of the selected `food_master` row multiplied by `ratio` independently.  The
program itself evaluates these expressions in binary64 floating point; that
semantics is `scaleNutrientsFloat` below. -/
def scaleNutrients (food : Food) (amount : ℚ) : ℚ × ℚ × ℚ × ℚ × ℚ :=
  let ratio := amount / 100
  (food.calories * ratio, food.protein * ratio, food.fat * ratio,
   food.carbs * ratio, food.fiber * ratio)

/-- Round a positive rational with `2^e ≤ q < 2^(e+1)` to a 53-bit binary
significand, ties to even: the IEEE 754 binary64 rounding step. -/
def rnd53 (e : ℤ) (q : ℚ) : ℚ :=
  let scaled : ℚ := q * 2 ^ ((52 : ℤ) - e)
  let lo : ℤ := ⌊scaled⌋
  let frac : ℚ := scaled - (lo : ℚ)
  let m : ℤ :=
    if frac < 1 / 2 then lo
    else if 1 / 2 < frac then lo + 1
    else if 2 ∣ lo then lo else lo + 1
  (m : ℚ) * 2 ^ (e - 52)

/-- The binary64 double nearest a real (rational) value, round to nearest
with ties to even, for values in the normal range (no overflow or subnormal
handling, which the nutrient magnitudes here never reach).  This is the
value Python stores for a float literal and the rounding applied after every
float arithmetic operation. -/
def fl64 (q : ℚ) : ℚ :=
  if q = 0 then 0
  else if q < 0 then -rnd53 (Int.log 2 (-q)) (-q)
  else rnd53 (Int.log 2 q) q

/-- Binary64 multiplication: exact product, then one rounding. -/
def fmul (a b : ℚ) : ℚ := fl64 (a * b)

/-- Binary64 division: exact quotient, then one rounding. -/
def fdiv (a b : ℚ) : ℚ := fl64 (a / b)

/-- The caller-side nutrient scaling of `src/app.py` (lines 188-194) in the
program's own binary64 arithmetic: `ratio = amount / 100.0` is a float
division and each per-100g field is multiplied by `ratio` as a float
product.  The field values of `food` are themselves doubles (what the store
returns). -/
def scaleNutrientsFloat (food : Food) (amount : ℚ) : ℚ × ℚ × ℚ × ℚ × ℚ :=
  let ratio := fdiv amount 100
  (fmul food.calories ratio, fmul food.protein ratio, fmul food.fat ratio,
   fmul food.carbs ratio, fmul food.fiber ratio)

/-- The `Rice` master entry as the program stores it: the binary64 images of
the decimal inputs `168`, `2.5`, `0.3`, `37.1`, `0.3`. -/
def riceFoodFloat : Food :=
  { id := 1, name := "Rice", calories := fl64 168, protein := fl64 2.5,
    fat := fl64 0.3, carbs := fl64 37.1, fiber := fl64 0.3 }

namespace MealDatabase

/-! ## Sample data for concrete witnesses -/

/-- The `Rice` master entry of the spec's scaling scenario. -/
def riceFood : Food :=
  { id := 1, name := "Rice", calories := 168, protein := 2.5, fat := 0.3,
    carbs := 37.1, fiber := 0.3 }

/-- A concrete meal record used by the closed witnesses. -/
def riceMeal : MealRecord :=
  { id := 1, date := "2024-01-01", meal_type := "breakfast",
    food_name := "Rice", amount := 100, calories := 168, protein := 2.5,
    fat := 0.3, carbs := 37.1, fiber := 0.3,
    created_at := "2024-01-01 08:00:00" }

/-- A second concrete meal record used by the closed witnesses. -/
def eggMeal : MealRecord :=
  { id := 2, date := "2024-01-03", meal_type := "lunch",
    food_name := "Egg", amount := 50, calories := 76, protein := 6,
    fat := 5, carbs := 0, fiber := 0,
    created_at := "2024-01-03 12:00:00" }

/-- A small concrete database used by the closed witnesses. -/
def dbW : MealDatabase :=
  { food_master := [riceFood],
    meal_records := [riceMeal, eggMeal],
    next_food_id := 2, next_meal_id := 3 }

/-! ## Helper lemmas -/

/-- A `NULL`-coalesced SQL sum is the plain sum (the empty sum being `0`). -/
theorem sqlSum_getD (xs : List ℚ) : (sqlSum xs).getD 0 = xs.sum := by
  cases xs <;> simp [sqlSum]

end MealDatabase

open MealDatabase

/-- C5: `deleteMealRecord(id)` removes exactly the records with that id and
touches nothing else; when no record has the id it is a no-op leaving every
row of both tables unchanged (and, being total, it signals no error). -/
theorem delete_meal_record_spec (db : MealDatabase) (id0 : Nat) :
    (db.delete_meal_record id0).meal_records
        = db.meal_records.filter (fun r => r.id ≠ id0)
    ∧ (db.delete_meal_record id0).food_master = db.food_master
    ∧ ((∀ r ∈ db.meal_records, r.id ≠ id0) → db.delete_meal_record id0 = db) := by
  refine ⟨rfl, rfl, fun h => ?_⟩
  have hf : db.meal_records.filter (fun r => decide (r.id ≠ id0)) = db.meal_records :=
    List.filter_eq_self.mpr (by simpa using h)
  simp only [delete_meal_record]
  rw [hf]

/-- C5 witness: deleting the absent id 99 from the sample database leaves it
unchanged. -/
theorem delete_meal_record_spec_witness :
    dbW.delete_meal_record 99 = dbW :=
  (delete_meal_record_spec dbW 99).2.2 (by decide)

/-- C7: `initialize()` is idempotent: running it again on the state it
produced changes nothing, and on a state whose tables already exist it is a
no-op preserving all stored data (the result always has both tables, by the
shape of `MealDatabase`). -/
theorem init_db_idempotent :
    (∀ s : Option MealDatabase, init_db (some (init_db s)) = init_db s)
    ∧ (∀ db : MealDatabase, init_db (some db) = db) :=
  ⟨fun _ => rfl, fun _ => rfl⟩

/-- C10: `addMealRecord`, `updateMealRecord` and `deleteMealRecord` leave the
`food_master` table unchanged, and `addFood` leaves the `meal_records` table
unchanged: no operation writes to both tables. -/
theorem table_frame_spec (db : MealDatabase) (d mt fn n now : String)
    (am c p f cb fb c2 p2 f2 cb2 fb2 : ℚ) (id0 : Nat) :
    (db.add_meal_record d mt fn am c p f cb fb now).food_master = db.food_master
    ∧ (db.update_meal_record id0 d mt fn am c p f cb fb).food_master = db.food_master
    ∧ (db.delete_meal_record id0).food_master = db.food_master
    ∧ (db.add_food_to_master n c2 p2 f2 cb2 fb2).meal_records = db.meal_records :=
  ⟨rfl, rfl, rfl, rfl⟩

/-- C6: after `addFood`, `listFoods` contains an entry whose fields match the
inputs exactly, and the whole list is sorted by name ascending; this holds
for every prior state, in particular when an entry with the same name already
exists (no uniqueness constraint). -/
theorem add_food_then_list_spec (db : MealDatabase) (n : String) (c p f cb fb : ℚ) :
    (∃ x ∈ (db.add_food_to_master n c p f cb fb).get_all_foods,
        x.name = n ∧ x.calories = c ∧ x.protein = p ∧ x.fat = f
          ∧ x.carbs = cb ∧ x.fiber = fb)
    ∧ ((db.add_food_to_master n c p f cb fb).get_all_foods).Pairwise
        (fun a b => a.name ≤ b.name) := by
  constructor
  · refine ⟨{ id := db.next_food_id, name := n, calories := c, protein := p,
              fat := f, carbs := cb, fiber := fb }, ?_, rfl, rfl, rfl, rfl, rfl, rfl⟩
    rw [get_all_foods, List.mem_insertionSort]
    simp [add_food_to_master]
  · exact List.sorted_insertionSort foodLe _

/-- C6 witness: adding a second entry named `Rice` (a duplicate name) to the
sample database still lists an exactly-matching entry, in a name-sorted
list. -/
theorem add_food_then_list_spec_witness :
    (∃ x ∈ (dbW.add_food_to_master "Rice" 100 1 1 1 1).get_all_foods,
        x.name = "Rice" ∧ x.calories = 100 ∧ x.protein = 1 ∧ x.fat = 1
          ∧ x.carbs = 1 ∧ x.fiber = 1)
    ∧ ((dbW.add_food_to_master "Rice" 100 1 1 1 1).get_all_foods).Pairwise
        (fun a b => a.name ≤ b.name) :=
  add_food_then_list_spec dbW "Rice" 100 1 1 1 1

/-- C1: `getDailySummary(D)` returns a mapping with exactly the keys
`calories`, `protein`, `fat`, `carbs`, `fiber` (in that order), each value
the sum of that nutrient field over all records whose date equals `D`; for a
date with no matching records every field is `0` and no key is missing. -/
theorem get_daily_summary_spec (db : MealDatabase) (d : String) :
    (db.get_daily_summary d).map Prod.fst
        = ["calories", "protein", "fat", "carbs", "fiber"]
    ∧ ("calories",
        ((db.meal_records.filter (fun r => r.date == d)).map MealRecord.calories).sum)
        ∈ db.get_daily_summary d
    ∧ ("protein",
        ((db.meal_records.filter (fun r => r.date == d)).map MealRecord.protein).sum)
        ∈ db.get_daily_summary d
    ∧ ("fat",
        ((db.meal_records.filter (fun r => r.date == d)).map MealRecord.fat).sum)
        ∈ db.get_daily_summary d
    ∧ ("carbs",
        ((db.meal_records.filter (fun r => r.date == d)).map MealRecord.carbs).sum)
        ∈ db.get_daily_summary d
    ∧ ("fiber",
        ((db.meal_records.filter (fun r => r.date == d)).map MealRecord.fiber).sum)
        ∈ db.get_daily_summary d
    ∧ ((∀ r ∈ db.meal_records, r.date ≠ d) →
        db.get_daily_summary d
          = [("calories", 0), ("protein", 0), ("fat", 0), ("carbs", 0), ("fiber", 0)]) := by
  refine ⟨?_, ?_, ?_, ?_, ?_, ?_, fun h => ?_⟩
  · rfl
  · simp [get_daily_summary, sqlSum_getD]
  · simp [get_daily_summary, sqlSum_getD]
  · simp [get_daily_summary, sqlSum_getD]
  · simp [get_daily_summary, sqlSum_getD]
  · simp [get_daily_summary, sqlSum_getD]
  · have hf : db.meal_records.filter (fun r => r.date == d) = [] := by
      refine List.filter_eq_nil_iff.mpr (fun r hr => ?_)
      simpa using h r hr
    simp [get_daily_summary, hf, sqlSum]

/-- C1 witness: the sample database has no record on 2024-02-01, and its
daily summary for that date is the all-zero mapping with exactly the five
keys. -/
theorem get_daily_summary_spec_witness :
    dbW.get_daily_summary "2024-02-01"
      = [("calories", 0), ("protein", 0), ("fat", 0), ("carbs", 0), ("fiber", 0)] :=
  (get_daily_summary_spec dbW "2024-02-01").2.2.2.2.2.2 (by decide)

/-- Shared helper: a record is in a range query's result exactly when it is
in the table and its date lies in the closed interval. -/
theorem mem_get_meals_by_date_range {db : MealDatabase} {s e : String}
    {r : MealRecord} :
    r ∈ db.get_meals_by_date_range s e ↔
      r ∈ db.meal_records ∧ s ≤ r.date ∧ r.date ≤ e := by
  simp [MealDatabase.get_meals_by_date_range, List.mem_insertionSort,
    List.mem_filter, MealDatabase.inRange]

/-- C3: `getMealsByDateRange(start, end)` returns exactly the records whose
date lies in the closed interval `[start, end]` under string comparison
(both endpoints included, everything outside excluded, multiplicities
preserved), ordered by `(date, created_at)` ascending. -/
theorem get_meals_by_date_range_spec (db : MealDatabase) (s e : String) :
    (∀ r : MealRecord, r ∈ db.get_meals_by_date_range s e ↔
        (r ∈ db.meal_records ∧ s ≤ r.date ∧ r.date ≤ e))
    ∧ List.Perm (db.get_meals_by_date_range s e)
        (db.meal_records.filter (inRange s e))
    ∧ (db.get_meals_by_date_range s e).Pairwise
        (fun a b => a.date < b.date ∨ (a.date = b.date ∧ a.created_at ≤ b.created_at)) := by
  refine ⟨fun r => mem_get_meals_by_date_range, ?_, ?_⟩
  · exact List.perm_insertionSort mealLe _
  · exact List.sorted_insertionSort mealLe _

/-- C3 witness: in the sample database (records dated 2024-01-01 and
2024-01-03), the range 2024-01-02..2024-01-08 contains the 2024-01-03
record and excludes the 2024-01-01 record. -/
theorem get_meals_by_date_range_spec_witness :
    eggMeal ∈ dbW.get_meals_by_date_range "2024-01-02" "2024-01-08"
    ∧ riceMeal ∉ dbW.get_meals_by_date_range "2024-01-02" "2024-01-08" := by
  constructor
  · refine ((get_meals_by_date_range_spec dbW "2024-01-02" "2024-01-08").1 eggMeal).mpr
      ⟨by simp [dbW], ?_, ?_⟩
    · show ("2024-01-02" : String) ≤ "2024-01-03"
      simp only [String.le_iff_toList_le]
      decide
    · show ("2024-01-03" : String) ≤ "2024-01-08"
      simp only [String.le_iff_toList_le]
      decide
  · intro hmem
    have h :=
      ((get_meals_by_date_range_spec dbW "2024-01-02" "2024-01-08").1 riceMeal).mp hmem
    have hle : ("2024-01-02" : String) ≤ "2024-01-01" := h.2.1
    exact absurd hle (by simp only [String.le_iff_toList_le]; decide)

/-- Shared helper: after `update_meal_record`, every record carrying the
updated id holds exactly the nine new field values. -/
theorem update_meal_record_fields (db : MealDatabase) (id0 : Nat)
    (d mt fn : String) (am c p f cb fb : ℚ) (r : MealRecord)
    (hr : r ∈ (db.update_meal_record id0 d mt fn am c p f cb fb).meal_records)
    (hid : r.id = id0) :
    r.date = d ∧ r.meal_type = mt ∧ r.food_name = fn ∧ r.amount = am
      ∧ r.calories = c ∧ r.protein = p ∧ r.fat = f ∧ r.carbs = cb ∧ r.fiber = fb := by
  rw [MealDatabase.update_meal_record] at hr
  obtain ⟨r0, hr0, hfr⟩ := List.mem_map.mp hr
  by_cases h0 : r0.id = id0
  · rw [if_pos h0] at hfr
    subst hfr
    exact ⟨rfl, rfl, rfl, rfl, rfl, rfl, rfl, rfl, rfl⟩
  · rw [if_neg h0] at hfr
    subst hfr
    exact absurd hid h0

/-- C4: `updateMealRecord(id, ...)` replaces all nine mutable fields of the
record(s) with that id; afterwards a `getMealsByDateRange` covering the new
date returns the updated values, a range query not covering the new date no
longer includes the record, and when no record has the id the store is
unchanged. -/
theorem update_meal_record_spec (db : MealDatabase) (id0 : Nat)
    (d mt fn : String) (am c p f cb fb : ℚ) :
    ((∀ r ∈ db.meal_records, r.id ≠ id0) →
        db.update_meal_record id0 d mt fn am c p f cb fb = db)
    ∧ (∀ r ∈ (db.update_meal_record id0 d mt fn am c p f cb fb).meal_records,
        r.id = id0 →
          r.date = d ∧ r.meal_type = mt ∧ r.food_name = fn ∧ r.amount = am
            ∧ r.calories = c ∧ r.protein = p ∧ r.fat = f ∧ r.carbs = cb ∧ r.fiber = fb)
    ∧ (∀ s e : String, s ≤ d → d ≤ e →
        (∃ r ∈ db.meal_records, r.id = id0) →
        ∃ r ∈ (db.update_meal_record id0 d mt fn am c p f cb fb).get_meals_by_date_range s e,
          r.id = id0 ∧ r.date = d ∧ r.meal_type = mt ∧ r.food_name = fn ∧ r.amount = am
            ∧ r.calories = c ∧ r.protein = p ∧ r.fat = f ∧ r.carbs = cb ∧ r.fiber = fb)
    ∧ (∀ s e : String, ¬(s ≤ d ∧ d ≤ e) →
        ∀ r ∈ (db.update_meal_record id0 d mt fn am c p f cb fb).get_meals_by_date_range s e,
          r.id ≠ id0) := by
  refine ⟨fun h => ?_, fun r hr hid => update_meal_record_fields db id0 d mt fn am c p f cb fb r hr hid,
    fun s e hs he ⟨r0, hr0, hid0⟩ => ?_, fun s e hrange r hr hid => ?_⟩
  · have hm : db.meal_records.map (fun r =>
        if r.id = id0 then applyUpdate d mt fn am c p f cb fb r else r)
        = db.meal_records := by
      have := List.map_congr_left (l := db.meal_records)
        (f := fun r : MealRecord =>
          if r.id = id0 then applyUpdate d mt fn am c p f cb fb r else r)
        (g := id) (fun r hr => if_neg (h r hr))
      simpa using this
    simp only [update_meal_record, hm]
  · refine ⟨applyUpdate d mt fn am c p f cb fb r0, ?_,
      hid0, rfl, rfl, rfl, rfl, rfl, rfl, rfl, rfl, rfl⟩
    have hmem : applyUpdate d mt fn am c p f cb fb r0
        ∈ (db.update_meal_record id0 d mt fn am c p f cb fb).meal_records := by
      rw [update_meal_record]
      exact List.mem_map.mpr ⟨r0, hr0, by rw [if_pos hid0]⟩
    exact mem_get_meals_by_date_range.mpr ⟨hmem, hs, he⟩
  · have h := mem_get_meals_by_date_range.mp hr
    have hfields := update_meal_record_fields db id0 d mt fn am c p f cb fb r h.1 hid
    exact hrange ⟨hfields.1 ▸ h.2.1, hfields.1 ▸ h.2.2⟩

/-- C4 witness: updating record 1 of the sample database to 2024-02-10
makes a query covering February return it with the new values, while the
query for its old date 2024-01-01 alone no longer includes it. -/
theorem update_meal_record_spec_witness :
    (∃ r ∈ (dbW.update_meal_record 1 "2024-02-10" "dinner" "Tofu" 80 60 7 4 2 1).get_meals_by_date_range "2024-02-01" "2024-02-28",
        r.id = 1 ∧ r.date = "2024-02-10" ∧ r.calories = 60)
    ∧ (∀ r ∈ (dbW.update_meal_record 1 "2024-02-10" "dinner" "Tofu" 80 60 7 4 2 1).get_meals_by_date_range "2024-01-01" "2024-01-01",
        r.id ≠ 1) := by
  have hspec := update_meal_record_spec dbW 1 "2024-02-10" "dinner" "Tofu" 80 60 7 4 2 1
  constructor
  · obtain ⟨r, hr, h1, h2, h3, h4, h5, h6, h7, h8, h9, h10⟩ :=
      hspec.2.2.1 "2024-02-01" "2024-02-28"
        (by simp only [String.le_iff_toList_le]; decide)
        (by simp only [String.le_iff_toList_le]; decide)
        ⟨riceMeal, by simp [dbW], rfl⟩
    exact ⟨r, hr, h1, h2, h6⟩
  · intro r hr
    refine hspec.2.2.2 "2024-01-01" "2024-01-01" ?_ r hr
    rintro ⟨-, h2⟩
    revert h2
    simp only [String.le_iff_toList_le]
    decide

/-- C9: `updateMealRecord` preserves the table's length and, at every
position, the row's `id` and `created_at`; a row whose id differs from the
given id is left entirely unchanged. -/
theorem update_meal_record_frame (db : MealDatabase) (id0 : Nat)
    (d mt fn : String) (am c p f cb fb : ℚ) :
    (db.update_meal_record id0 d mt fn am c p f cb fb).meal_records.length
        = db.meal_records.length
    ∧ (∀ i : Nat,
        ((db.update_meal_record id0 d mt fn am c p f cb fb).meal_records[i]?.map MealRecord.id)
          = (db.meal_records[i]?.map MealRecord.id)
        ∧ ((db.update_meal_record id0 d mt fn am c p f cb fb).meal_records[i]?.map MealRecord.created_at)
          = (db.meal_records[i]?.map MealRecord.created_at)
        ∧ (∀ r : MealRecord, db.meal_records[i]? = some r → r.id ≠ id0 →
            (db.update_meal_record id0 d mt fn am c p f cb fb).meal_records[i]? = some r)) := by
  refine ⟨by simp [update_meal_record], fun i => ?_⟩
  have hmap : (db.update_meal_record id0 d mt fn am c p f cb fb).meal_records[i]?
      = db.meal_records[i]?.map (fun r =>
          if r.id = id0 then applyUpdate d mt fn am c p f cb fb r else r) := by
    simp [update_meal_record]
  refine ⟨?_, ?_, fun r hr hne => ?_⟩
  · rw [hmap]
    cases db.meal_records[i]? with
    | none => rfl
    | some r =>
      by_cases h0 : r.id = id0 <;> simp [h0, applyUpdate]
  · rw [hmap]
    cases db.meal_records[i]? with
    | none => rfl
    | some r =>
      by_cases h0 : r.id = id0 <;> simp [h0, applyUpdate]
  · rw [hmap, hr]
    simp [hne]

/-- C9 witness: updating record 1 of the sample database leaves the row at
position 1 (id 2, different from the updated id) entirely unchanged. -/
theorem update_meal_record_frame_witness :
    (dbW.update_meal_record 1 "2024-02-10" "dinner" "Tofu" 80 60 7 4 2 1).meal_records[1]?
      = some eggMeal := by
  have h := (update_meal_record_frame dbW 1 "2024-02-10" "dinner" "Tofu" 80 60 7 4 2 1).2 1
  exact h.2.2 eggMeal (by simp [dbW]) (by decide)

/-- Shared helper: membership in `insertDate`. -/
theorem mem_insertDate (a d : String) (l : List String) :
    a ∈ MealDatabase.insertDate d l ↔ a = d ∨ a ∈ l := by
  induction l with
  | nil => simp [MealDatabase.insertDate]
  | cons x xs ih =>
    rw [MealDatabase.insertDate]
    by_cases h1 : d = x
    · subst h1
      rw [if_pos rfl]
      simp only [List.mem_cons]
      constructor
      · exact fun h => Or.inr h
      · rintro (rfl | h)
        · exact Or.inl rfl
        · exact h
    · rw [if_neg h1]
      by_cases h2 : d < x
      · rw [if_pos h2]
        simp [List.mem_cons]
      · rw [if_neg h2]
        simp only [List.mem_cons, ih]
        tauto

/-- Shared helper: `insertDate` keeps the date list strictly ascending. -/
theorem pairwise_insertDate (d : String) (l : List String)
    (hl : l.Pairwise (fun a b => a < b)) :
    (MealDatabase.insertDate d l).Pairwise (fun a b => a < b) := by
  induction l with
  | nil => simp [MealDatabase.insertDate]
  | cons x xs ih =>
    rw [MealDatabase.insertDate]
    by_cases h1 : d = x
    · rw [if_pos h1]
      exact hl
    · rw [if_neg h1]
      by_cases h2 : d < x
      · rw [if_pos h2]
        refine List.Pairwise.cons ?_ hl
        intro y hy
        rcases List.mem_cons.mp hy with rfl | hy2
        · exact h2
        · exact h2.trans (List.rel_of_pairwise_cons hl hy2)
      · rw [if_neg h2]
        have hx : x < d := lt_of_le_of_ne (not_lt.mp h2) (fun heq => h1 heq.symm)
        obtain ⟨hhead, htail⟩ := List.pairwise_cons.mp hl
        refine List.pairwise_cons.mpr ⟨?_, ih htail⟩
        intro y hy
        rcases (mem_insertDate y d xs).mp hy with rfl | hy2
        · exact hx
        · exact hhead y hy2

/-- Shared helper: the `GROUP BY date` key list holds exactly the dates of
the rows. -/
theorem mem_groupDates (d : String) (rs : List MealRecord) :
    d ∈ MealDatabase.groupDates rs ↔ ∃ r ∈ rs, r.date = d := by
  induction rs with
  | nil => simp [MealDatabase.groupDates]
  | cons r rs ih =>
    simp only [MealDatabase.groupDates, List.foldr_cons] at ih ⊢
    rw [mem_insertDate]
    constructor
    · rintro (rfl | h)
      · exact ⟨r, List.mem_cons_self r rs, rfl⟩
      · obtain ⟨r0, hr0, hd⟩ := ih.mp h
        exact ⟨r0, List.mem_cons_of_mem _ hr0, hd⟩
    · rintro ⟨r0, hr0, hd⟩
      rcases List.mem_cons.mp hr0 with rfl | hr2
      · exact Or.inl hd.symm
      · exact Or.inr (ih.mpr ⟨r0, hr2, hd⟩)

/-- Shared helper: the `GROUP BY date ... ORDER BY date` key list is strictly
ascending. -/
theorem pairwise_groupDates (rs : List MealRecord) :
    (MealDatabase.groupDates rs).Pairwise (fun a b => a < b) := by
  induction rs with
  | nil => simp [MealDatabase.groupDates]
  | cons r rs ih =>
    simp only [MealDatabase.groupDates, List.foldr_cons] at ih ⊢
    exact pairwise_insertDate _ _ ih

/-- Shared helper: grouping the range-filtered rows by a date inside the
range selects the same rows as grouping the whole table by that date. -/
theorem filter_inRange_filter_date (l : List MealRecord) (s e d : String)
    (hs : s ≤ d) (he : d ≤ e) :
    (l.filter (MealDatabase.inRange s e)).filter (fun r => r.date == d)
      = l.filter (fun r => r.date == d) := by
  rw [List.filter_filter]
  refine List.filter_congr (fun r _ => ?_)
  by_cases hd : r.date = d
  · subst hd
    simp [MealDatabase.inRange, hs, he]
  · have hb : (r.date == d) = false := beq_eq_false_iff_ne.mpr hd
    simp [hb]

/-- C2: `getPeriodSummary(start, end)` returns one row per distinct date in
`[start, end]` having at least one record (a date with no records yields no
row), each row holding that date's per-field sums, in strictly ascending
date order. -/
theorem get_period_summary_spec (db : MealDatabase) (s e : String) :
    (db.get_period_summary s e).Pairwise (fun a b => a.date < b.date)
    ∧ (∀ d : String,
        (∃ row ∈ db.get_period_summary s e, row.date = d) ↔
        (∃ r ∈ db.meal_records, r.date = d ∧ s ≤ d ∧ d ≤ e))
    ∧ (∀ row ∈ db.get_period_summary s e,
        row.total_calories
            = ((db.meal_records.filter (fun r => r.date == row.date)).map MealRecord.calories).sum
        ∧ row.total_protein
            = ((db.meal_records.filter (fun r => r.date == row.date)).map MealRecord.protein).sum
        ∧ row.total_fat
            = ((db.meal_records.filter (fun r => r.date == row.date)).map MealRecord.fat).sum
        ∧ row.total_carbs
            = ((db.meal_records.filter (fun r => r.date == row.date)).map MealRecord.carbs).sum
        ∧ row.total_fiber
            = ((db.meal_records.filter (fun r => r.date == row.date)).map MealRecord.fiber).sum) := by
  have hins : ∀ r ∈ db.meal_records.filter (inRange s e), s ≤ r.date ∧ r.date ≤ e :=
    fun r hr => of_decide_eq_true (List.mem_filter.mp hr).2
  refine ⟨?_, fun d => ⟨?_, ?_⟩, fun row hrow => ?_⟩
  · simp only [get_period_summary]
    rw [List.pairwise_map]
    exact pairwise_groupDates _
  · rintro ⟨row, hrow, rfl⟩
    simp only [get_period_summary] at hrow
    obtain ⟨d0, hd0, rfl⟩ := List.mem_map.mp hrow
    obtain ⟨r, hr, hrd⟩ := (mem_groupDates d0 _).mp hd0
    exact ⟨r, (List.mem_filter.mp hr).1, hrd, hrd ▸ (hins r hr).1, hrd ▸ (hins r hr).2⟩
  · rintro ⟨r, hr, rfl, hs2, he2⟩
    have hrrows : r ∈ db.meal_records.filter (inRange s e) :=
      List.mem_filter.mpr ⟨hr, decide_eq_true ⟨hs2, he2⟩⟩
    have hd0 : r.date ∈ MealDatabase.groupDates (db.meal_records.filter (inRange s e)) :=
      (mem_groupDates r.date _).mpr ⟨r, hrrows, rfl⟩
    simp only [get_period_summary]
    exact ⟨_, List.mem_map.mpr ⟨r.date, hd0, rfl⟩, rfl⟩
  · simp only [get_period_summary] at hrow
    obtain ⟨d0, hd0, rfl⟩ := List.mem_map.mp hrow
    obtain ⟨r, hr, hrd⟩ := (mem_groupDates d0 _).mp hd0
    have hs0 : s ≤ d0 := hrd ▸ (hins r hr).1
    have he0 : d0 ≤ e := hrd ▸ (hins r hr).2
    have hfe := filter_inRange_filter_date db.meal_records s e d0 hs0 he0
    refine ⟨?_, ?_, ?_, ?_, ?_⟩
    · show (((db.meal_records.filter (inRange s e)).filter
          (fun r => r.date == d0)).map MealRecord.calories).sum
        = ((db.meal_records.filter (fun r => r.date == d0)).map MealRecord.calories).sum
      rw [hfe]
    · show (((db.meal_records.filter (inRange s e)).filter
          (fun r => r.date == d0)).map MealRecord.protein).sum
        = ((db.meal_records.filter (fun r => r.date == d0)).map MealRecord.protein).sum
      rw [hfe]
    · show (((db.meal_records.filter (inRange s e)).filter
          (fun r => r.date == d0)).map MealRecord.fat).sum
        = ((db.meal_records.filter (fun r => r.date == d0)).map MealRecord.fat).sum
      rw [hfe]
    · show (((db.meal_records.filter (inRange s e)).filter
          (fun r => r.date == d0)).map MealRecord.carbs).sum
        = ((db.meal_records.filter (fun r => r.date == d0)).map MealRecord.carbs).sum
      rw [hfe]
    · show (((db.meal_records.filter (inRange s e)).filter
          (fun r => r.date == d0)).map MealRecord.fiber).sum
        = ((db.meal_records.filter (fun r => r.date == d0)).map MealRecord.fiber).sum
      rw [hfe]

/-- C2 witness: over 2024-01-01..2024-01-06 the sample database (records on
2024-01-01 and 2024-01-03 only) yields a row for 2024-01-03 and no row for
the record-free date 2024-01-02. -/
theorem get_period_summary_spec_witness :
    (∃ row ∈ dbW.get_period_summary "2024-01-01" "2024-01-06", row.date = "2024-01-03")
    ∧ ¬(∃ row ∈ dbW.get_period_summary "2024-01-01" "2024-01-06", row.date = "2024-01-02") := by
  have hspec := (get_period_summary_spec dbW "2024-01-01" "2024-01-06").2.1
  constructor
  · refine (hspec "2024-01-03").mpr ⟨eggMeal, by simp [dbW], rfl, ?_, ?_⟩
    · show ("2024-01-01" : String) ≤ "2024-01-03"
      simp only [String.le_iff_toList_le]
      decide
    · show ("2024-01-03" : String) ≤ "2024-01-06"
      simp only [String.le_iff_toList_le]
      decide
  · intro hex
    obtain ⟨r, hr, hrd, -, -⟩ := (hspec "2024-01-02").mp hex
    have hcases : r = riceMeal ∨ r = eggMeal := by simpa [dbW] using hr
    rcases hcases with rfl | rfl
    · exact absurd hrd (by decide)
    · exact absurd hrd (by decide)

/-- Shared helper: `Int.log 2` is determined by a bracketing pair of powers. -/
theorem int_log_eq {r : ℚ} {e : ℤ} (hr : 0 < r)
    (h1 : (2 : ℚ) ^ e ≤ r) (h2 : r < (2 : ℚ) ^ (e + 1)) :
    Int.log 2 r = e := by
  have hle : e ≤ Int.log 2 r := (Int.zpow_le_iff_le_log one_lt_two hr).mp h1
  have hlt : Int.log 2 r < e + 1 := (Int.lt_zpow_iff_log_lt one_lt_two hr).mp h2
  omega

/-- Shared helper: `fl64` when the scaled fraction rounds down. -/
theorem fl64_eval_down (q : ℚ) (e lo : ℤ) (hq : 0 < q)
    (h1 : (2 : ℚ) ^ e ≤ q) (h2 : q < (2 : ℚ) ^ (e + 1))
    (hlo1 : (lo : ℚ) ≤ q * 2 ^ ((52 : ℤ) - e))
    (hfrac : q * 2 ^ ((52 : ℤ) - e) - (lo : ℚ) < 1 / 2) :
    fl64 q = (lo : ℚ) * 2 ^ (e - 52) := by
  have hlo : ⌊q * 2 ^ ((52 : ℤ) - e)⌋ = lo :=
    Int.floor_eq_iff.mpr ⟨hlo1, by linarith⟩
  rw [fl64, if_neg (ne_of_gt hq), if_neg (not_lt.mpr hq.le), int_log_eq hq h1 h2, rnd53]
  simp only [hlo]
  rw [if_pos hfrac]

/-- Shared helper: `fl64` when the scaled fraction rounds up. -/
theorem fl64_eval_up (q : ℚ) (e lo : ℤ) (hq : 0 < q)
    (h1 : (2 : ℚ) ^ e ≤ q) (h2 : q < (2 : ℚ) ^ (e + 1))
    (hlo1 : (lo : ℚ) ≤ q * 2 ^ ((52 : ℤ) - e))
    (hlo2 : q * 2 ^ ((52 : ℤ) - e) < (lo : ℚ) + 1)
    (hfrac : 1 / 2 < q * 2 ^ ((52 : ℤ) - e) - (lo : ℚ)) :
    fl64 q = ((lo : ℚ) + 1) * 2 ^ (e - 52) := by
  have hlo : ⌊q * 2 ^ ((52 : ℤ) - e)⌋ = lo :=
    Int.floor_eq_iff.mpr ⟨hlo1, hlo2⟩
  rw [fl64, if_neg (ne_of_gt hq), if_neg (not_lt.mpr hq.le), int_log_eq hq h1 h2, rnd53]
  simp only [hlo]
  rw [if_neg (not_lt.mpr (le_of_lt hfrac)), if_pos hfrac]
  push_cast
  ring

/-- Shared helper: `fl64` at an exact tie with an even lower significand. -/
theorem fl64_eval_tie_even (q : ℚ) (e lo : ℤ) (hq : 0 < q)
    (h1 : (2 : ℚ) ^ e ≤ q) (h2 : q < (2 : ℚ) ^ (e + 1))
    (hfrac : q * 2 ^ ((52 : ℤ) - e) - (lo : ℚ) = 1 / 2)
    (heven : 2 ∣ lo) :
    fl64 q = (lo : ℚ) * 2 ^ (e - 52) := by
  have hlo : ⌊q * 2 ^ ((52 : ℤ) - e)⌋ = lo :=
    Int.floor_eq_iff.mpr ⟨by linarith, by linarith⟩
  rw [fl64, if_neg (ne_of_gt hq), if_neg (not_lt.mpr hq.le), int_log_eq hq h1 h2, rnd53]
  simp only [hlo]
  rw [if_neg (not_lt.mpr hfrac.ge), if_neg (not_lt.mpr hfrac.le), if_pos heven]

/-- Shared helper: `fl64` at an exact tie with an odd lower significand. -/
theorem fl64_eval_tie_odd (q : ℚ) (e lo : ℤ) (hq : 0 < q)
    (h1 : (2 : ℚ) ^ e ≤ q) (h2 : q < (2 : ℚ) ^ (e + 1))
    (hfrac : q * 2 ^ ((52 : ℤ) - e) - (lo : ℚ) = 1 / 2)
    (hodd : ¬ 2 ∣ lo) :
    fl64 q = ((lo : ℚ) + 1) * 2 ^ (e - 52) := by
  have hlo : ⌊q * 2 ^ ((52 : ℤ) - e)⌋ = lo :=
    Int.floor_eq_iff.mpr ⟨by linarith, by linarith⟩
  rw [fl64, if_neg (ne_of_gt hq), if_neg (not_lt.mpr hq.le), int_log_eq hq h1 h2, rnd53]
  simp only [hlo]
  rw [if_neg (not_lt.mpr hfrac.ge), if_neg (not_lt.mpr hfrac.le), if_neg hodd]
  push_cast
  ring

/-- `168` is exactly representable in binary64. -/
theorem fl64_168 : fl64 168 = 168 := by
  have h := fl64_eval_down 168 7 5910974510923776 (by norm_num) (by norm_num)
    (by norm_num) (by norm_num) (by norm_num)
  rw [h]
  norm_num

/-- `2.5` is exactly representable in binary64. -/
theorem fl64_25 : fl64 (2.5 : ℚ) = 5 / 2 := by
  have h := fl64_eval_down (2.5 : ℚ) 1 5629499534213120 (by norm_num) (by norm_num)
    (by norm_num) (by norm_num) (by norm_num)
  rw [h]
  norm_num

/-- The binary64 double nearest `0.3`, one ulp below it. -/
theorem fl64_03 : fl64 (0.3 : ℚ) = 5404319552844595 / 2 ^ 54 := by
  have h := fl64_eval_down (0.3 : ℚ) (-2) 5404319552844595 (by norm_num) (by norm_num)
    (by norm_num) (by norm_num) (by norm_num)
  rw [h]
  norm_num

/-- The binary64 double nearest `37.1`, above it. -/
theorem fl64_371 : fl64 (37.1 : ℚ) = 5221360817982669 / 2 ^ 47 := by
  have h := fl64_eval_up (37.1 : ℚ) 5 5221360817982668 (by norm_num) (by norm_num)
    (by norm_num) (by norm_num) (by norm_num) (by norm_num)
  rw [h]
  norm_num

/-- `1.5` is exactly representable in binary64 (the value of `150.0/100.0`). -/
theorem fl64_15 : fl64 (3 / 2 : ℚ) = 3 / 2 := by
  have h := fl64_eval_down (3 / 2 : ℚ) 0 6755399441055744 (by norm_num) (by norm_num)
    (by norm_num) (by norm_num) (by norm_num)
  rw [h]
  norm_num

/-- `252` is exactly representable in binary64. -/
theorem fl64_252 : fl64 252 = 252 := by
  have h := fl64_eval_down 252 7 8866461766385664 (by norm_num) (by norm_num)
    (by norm_num) (by norm_num) (by norm_num)
  rw [h]
  norm_num

/-- `3.75` is exactly representable in binary64. -/
theorem fl64_375 : fl64 (15 / 4 : ℚ) = 15 / 4 := by
  have h := fl64_eval_down (15 / 4 : ℚ) 1 8444249301319680 (by norm_num) (by norm_num)
    (by norm_num) (by norm_num) (by norm_num)
  rw [h]
  norm_num

/-- The exact product `double(0.3) * 1.5` is a 54-bit tie; ties-to-even
rounds it down, one ulp below `double(0.45)`. -/
theorem fl64_fat : fl64 (16212958658533785 / 2 ^ 55 : ℚ) = 8106479329266892 / 2 ^ 54 := by
  have h := fl64_eval_tie_even (16212958658533785 / 2 ^ 55 : ℚ) (-2) 8106479329266892
    (by norm_num) (by norm_num) (by norm_num) (by norm_num) (by norm_num)
  rw [h]
  norm_num

/-- The exact product `double(37.1) * 1.5` is a 54-bit tie; ties-to-even
rounds it up, one ulp above `double(55.65)`. -/
theorem fl64_carbs : fl64 (15664082453948007 / 2 ^ 48 : ℚ) = 7832041226974004 / 2 ^ 47 := by
  have h := fl64_eval_tie_odd (15664082453948007 / 2 ^ 48 : ℚ) 5 7832041226974003
    (by norm_num) (by norm_num) (by norm_num) (by norm_num) (by norm_num)
  rw [h]
  norm_num

/-- The binary64 double nearest `0.45`, above it. -/
theorem fl64_045 : fl64 (0.45 : ℚ) = 8106479329266893 / 2 ^ 54 := by
  have h := fl64_eval_up (0.45 : ℚ) (-2) 8106479329266892 (by norm_num) (by norm_num)
    (by norm_num) (by norm_num) (by norm_num) (by norm_num)
  rw [h]
  norm_num

/-- The binary64 double nearest `55.65`, below it. -/
theorem fl64_5565 : fl64 (55.65 : ℚ) = 7832041226974003 / 2 ^ 47 := by
  have h := fl64_eval_down (55.65 : ℚ) 5 7832041226974003 (by norm_num) (by norm_num)
    (by norm_num) (by norm_num) (by norm_num)
  rw [h]
  norm_num

/-- Shared helper: the full binary64 evaluation of the scaling at the stored
Rice row and 150 g, matching what the Python program computes
(`252.0`, `3.75`, `0.44999999999999996`, `55.650000000000006`,
`0.44999999999999996`). -/
theorem scaleNutrientsFloat_rice_150 :
    scaleNutrientsFloat riceFoodFloat 150 =
      (252, 15 / 4, 8106479329266892 / 2 ^ 54, 7832041226974004 / 2 ^ 47,
        8106479329266892 / 2 ^ 54) := by
  have harg : (150 : ℚ) / 100 = 3 / 2 := by norm_num
  have hratio : fdiv 150 100 = 3 / 2 := by
    rw [fdiv, harg, fl64_15]
  have e1 : (168 : ℚ) * (3 / 2) = 252 := by norm_num
  have e2 : (5 / 2 : ℚ) * (3 / 2) = 15 / 4 := by norm_num
  have e3 : (5404319552844595 / 2 ^ 54 : ℚ) * (3 / 2) = 16212958658533785 / 2 ^ 55 := by
    norm_num
  have e4 : (5221360817982669 / 2 ^ 47 : ℚ) * (3 / 2) = 15664082453948007 / 2 ^ 48 := by
    norm_num
  simp only [scaleNutrientsFloat, riceFoodFloat, hratio, fl64_168, fl64_25, fl64_03,
    fl64_371, fmul, e1, e2, e3, e4, fl64_252, fl64_375, fl64_fat, fl64_carbs]

/-- C8 counterexample: at the claim's own input (the stored Rice row, 150 g)
the program's binary64 computation does not yield `0.45` and `55.65`: the
fat/fiber component is neither the rational `0.45` nor the double nearest
`0.45`, and the carbs component is neither `55.65` nor the double nearest
`55.65`, so the computed mapping differs from the claimed one. -/
theorem scale_rice_150_counterexample :
    scaleNutrientsFloat riceFoodFloat 150 ≠ (252.0, 3.75, 0.45, 55.65, 0.45)
    ∧ (scaleNutrientsFloat riceFoodFloat 150).2.2.1 ≠ (0.45 : ℚ)
    ∧ (scaleNutrientsFloat riceFoodFloat 150).2.2.1 ≠ fl64 0.45
    ∧ (scaleNutrientsFloat riceFoodFloat 150).2.2.2.1 ≠ (55.65 : ℚ)
    ∧ (scaleNutrientsFloat riceFoodFloat 150).2.2.2.1 ≠ fl64 55.65 := by
  refine ⟨?_, ?_, ?_, ?_, ?_⟩
  · intro h
    have h2 := congrArg (fun t : ℚ × ℚ × ℚ × ℚ × ℚ => t.2.2.1) h
    rw [scaleNutrientsFloat_rice_150] at h2
    norm_num at h2
  · rw [scaleNutrientsFloat_rice_150]
    norm_num
  · rw [scaleNutrientsFloat_rice_150, fl64_045]
    norm_num
  · rw [scaleNutrientsFloat_rice_150]
    norm_num
  · rw [scaleNutrientsFloat_rice_150, fl64_5565]
    norm_num

/-- C8 (amended): for the stored Rice entry and 150 g, the caller-side
binary64 scaling computes calories `252.0` and protein `3.75` exactly, but
fat and fiber come out one ulp below `0.45` (Python's
`0.44999999999999996`) and carbs one ulp above `55.65` (Python's
`55.650000000000006`); the claimed values `{252.0, 3.75, 0.45, 55.65,
0.45}` are exactly what the same scaling gives in exact real (rational)
arithmetic. -/
theorem scale_rice_150_float :
    scaleNutrientsFloat riceFoodFloat 150 =
      (252, 15 / 4, 8106479329266892 / 2 ^ 54, 7832041226974004 / 2 ^ 47,
        8106479329266892 / 2 ^ 54)
    ∧ (8106479329266892 / 2 ^ 54 : ℚ) < 0.45
    ∧ (55.65 : ℚ) < 7832041226974004 / 2 ^ 47
    ∧ scaleNutrients riceFood 150 = (252.0, 3.75, 0.45, 55.65, 0.45) := by
  refine ⟨scaleNutrientsFloat_rice_150, by norm_num, by norm_num, ?_⟩
  norm_num [scaleNutrients, riceFood]
